import Mathlib

/-!
Verification of the npm-database-handler-pg adapter.

The development shallowly embeds the adapter's core into Lean:
* `transformQuery` — the named-to-positional parameter rewrite of
  `PostgresStatement.transformQuery` (src/unnamed/part_001, lines 17-35),
  factored as a scan for the matches of the global regex `@(\w+)` followed
  by the stateful replacement fold the source performs in the replace
  callback;
* `PostgresStatement.run/all/get` — the three entry points with their
  try/finally release discipline (part_001, lines 37-68);
* `PostgresAdapter.transaction` and `PostgresAdapter.tableColumnInformation`
  (src/src/PostgresAdapter.ts), with the outcome of each driver call an
  explicit parameter so that every control path of the source is a value
  of the model;
* `PostgresSchemaBuilder.createTable/dropTable`
  (src/src/PostgresSchemaBuilder.ts);
* `PostgresTableSchemaBuilder` (src/src/PostgresTableSchemaBuilder.ts) with
  its fluent datatype and modifier methods and `build`.

JavaScript exceptions are modelled with `Except`, `undefined` with
`Option`/`JSVal.undef`, and pooled-connection release is counted
explicitly wherever a claim is about the release discipline.
-/

/-- A JavaScript runtime value as bound to a query parameter or passed to
`defaultTo`: `undefined`, a string, a number or a boolean. -/
inductive JSVal where
  | undef
  | str (s : String)
  | num (n : Int)
  | bool (b : Bool)
deriving DecidableEq

/-- The single-quote character (U+0027). -/
def sqChar : Char := Char.ofNat 39

/-- The single-quote character as a one-character string. -/
def sqStr : String := String.mk [sqChar]

/-- A named-parameter mapping: the JS `parameters` object as an ordered
association list. The absent / empty object is the empty list. -/
abbrev Params := List (String × JSVal)

/-- First-match association-list lookup (JS `Map.get` / property access). -/
def alookup {α : Type} : List (String × α) → String → Option α
  | [], _ => none
  | (k, v) :: rest, n => if k = n then some v else alookup rest n

/-- JS property read `parameters[name]`: a missing key yields `undefined`. -/
def lookupParam (ps : Params) (n : String) : JSVal :=
  (alookup ps n).getD JSVal.undef

/-- A regex `\w` word character: ASCII letter, digit or underscore. -/
def isWordChar (c : Char) : Bool := c.isAlphanum || c = '_'

/-- One piece of the query text as seen by the global regex `@(\w+)`:
either a literal character (no match starts here) or a named-parameter
token, the sigil plus a maximal nonempty run of word characters. -/
inductive Tok where
  | lit (c : Char)
  | param (name : String)
deriving DecidableEq

/-- Fuel-indexed scanner for the non-overlapping, left-to-right matches of
the global regex `@(\w+)`: at a sigil followed by at least one word
character the maximal word run is one token, otherwise the character is
literal text. The fuel is an upper bound on the number of characters. -/
def lexFuel : Nat → List Char → List Tok
  | 0, _ => []
  | _ + 1, [] => []
  | fuel + 1, c :: rest =>
    if c = '@' ∧ rest.takeWhile isWordChar ≠ [] then
      Tok.param (String.mk (rest.takeWhile isWordChar)) ::
        lexFuel fuel (rest.dropWhile isWordChar)
    else
      Tok.lit c :: lexFuel fuel rest

/-- The token stream of a query text under the regex `@(\w+)`. -/
def lex (cs : List Char) : List Tok := lexFuel cs.length cs

/-- The mutable state of the replace callback in
`PostgresStatement.transformQuery`: the `paramMap` from names to assigned
positional indices, the next unused index `paramIndex`, and the `values`
array accumulated so far. -/
structure TQState where
  paramMap : List (String × Nat)
  paramIndex : Nat
  values : List JSVal
deriving DecidableEq

/-- The backend's positional placeholder for index `i`. -/
def dollar (i : Nat) : String := "$" ++ toString i

/-- The stateful replacement fold of `transformQuery`: each literal
character is copied; a token whose name is already in `paramMap` is
replaced by its assigned placeholder; a first-encountered name is assigned
the next index, its value is appended, and the new placeholder is emitted.
Mirrors part_001 lines 26-32. -/
def runReplace (ps : Params) : List Tok → TQState → String × TQState
  | [], st => ("", st)
  | Tok.lit c :: ts, st =>
    (String.mk [c] ++ (runReplace ps ts st).1, (runReplace ps ts st).2)
  | Tok.param n :: ts, st =>
    match alookup st.paramMap n with
    | some i =>
      (dollar i ++ (runReplace ps ts st).1, (runReplace ps ts st).2)
    | none =>
      (dollar st.paramIndex ++
          (runReplace ps ts
            ⟨st.paramMap ++ [(n, st.paramIndex)], st.paramIndex + 1,
              st.values ++ [lookupParam ps n]⟩).1,
        (runReplace ps ts
          ⟨st.paramMap ++ [(n, st.paramIndex)], st.paramIndex + 1,
            st.values ++ [lookupParam ps n]⟩).2)

/-- `PostgresStatement.transformQuery` (part_001, lines 17-35): when the
parameter object is absent or empty, return the text unchanged with no
values; otherwise run the replacement fold from the empty map with
`paramIndex = 1`. -/
def transformQuery (q : String) (ps : Params) : String × List JSVal :=
  match ps with
  | [] => (q, [])
  | _ :: _ =>
    let r := runReplace ps (lex q.data) ⟨[], 1, []⟩
    (r.1, r.2.values)

/-- The parameter names of a token stream, in occurrence order. -/
def tokenNames : List Tok → List String
  | [] => []
  | Tok.lit _ :: ts => tokenNames ts
  | Tok.param n :: ts => n :: tokenNames ts

/-- The distinct names of a list in order of first appearance, skipping
names already in `seen` — the spec's "first occurrence wins" order. -/
def firstOccurAux : List String → List String → List String
  | _, [] => []
  | seen, n :: rest =>
    if n ∈ seen then firstOccurAux seen rest
    else n :: firstOccurAux (n :: seen) rest

/-- Pair each name with consecutive indices starting at `i`. -/
def enumFrom : Nat → List String → List (String × Nat)
  | _, [] => []
  | i, n :: rest => (n, i) :: enumFrom (i + 1) rest

/-- Position of the first occurrence of `n` in a list. -/
def posOf : List String → String → Nat
  | [], _ => 0
  | x :: xs, n => if x = n then 0 else posOf xs n + 1

/-- Rendering described by the spec: every token occurrence is replaced by
the positional placeholder of the index `assign` gives its name; literal
text is kept. -/
def specRender (assign : String → Nat) : List Tok → String
  | [] => ""
  | Tok.lit c :: ts => String.mk [c] ++ specRender assign ts
  | Tok.param n :: ts => dollar (assign n) ++ specRender assign ts

/-- The index a finished parameter map assigns to a name. -/
def lookupIdx (l : List (String × Nat)) (n : String) : Nat :=
  (alookup l n).getD 0

example : lex "a=@x AND b=@x".data =
    [Tok.lit 'a', Tok.lit '=', Tok.param "x", Tok.lit ' ', Tok.lit 'A',
     Tok.lit 'N', Tok.lit 'D', Tok.lit ' ', Tok.lit 'b', Tok.lit '=',
     Tok.param "x"] := by decide

example : transformQuery "a=@x AND b=@x" [("x", JSVal.num 5)] =
    ("a=$1 AND b=$1", [JSVal.num 5]) := by decide

example : transformQuery "x=@a, y=@b, z=@a" [("a", JSVal.num 1), ("b", JSVal.num 2)] =
    ("x=$1, y=$2, z=$1", [JSVal.num 1, JSVal.num 2]) := by decide

example : transformQuery "x=@missing" [("a", JSVal.num 1)] =
    ("x=$1", [JSVal.undef]) := by decide

example : transformQuery "x=@a" [] = ("x=@a", []) := by decide

lemma alookup_mem_of_some {α : Type} {l : List (String × α)} {n : String} {v : α}
    (h : alookup l n = some v) : n ∈ l.map Prod.fst := by
  induction l with
  | nil => simp [alookup] at h
  | cons p rest ih =>
    obtain ⟨k, w⟩ := p
    by_cases hk : k = n
    · simp [hk]
    · simp [alookup, hk] at h
      simp [ih h]

lemma alookup_not_mem_of_none {α : Type} {l : List (String × α)} {n : String}
    (h : alookup l n = none) : n ∉ l.map Prod.fst := by
  induction l with
  | nil => simp
  | cons p rest ih =>
    obtain ⟨k, w⟩ := p
    by_cases hk : k = n
    · simp [alookup, hk] at h
    · intro hmem
      simp only [List.map_cons, List.mem_cons] at hmem
      rcases hmem with rfl | hmem₂
      · exact hk rfl
      · simp only [alookup, hk, if_false] at h
        exact ih h hmem₂

lemma alookup_append_some {α : Type} {l₁ l₂ : List (String × α)} {n : String} {v : α}
    (h : alookup l₁ n = some v) : alookup (l₁ ++ l₂) n = some v := by
  induction l₁ with
  | nil => simp [alookup] at h
  | cons p rest ih =>
    obtain ⟨k, w⟩ := p
    by_cases hk : k = n
    · simp [alookup, hk] at h ⊢
      exact h
    · simp [alookup, hk] at h ⊢
      exact ih h

lemma alookup_append_none {α : Type} {l₁ l₂ : List (String × α)} {n : String}
    (h : alookup l₁ n = none) : alookup (l₁ ++ l₂) n = alookup l₂ n := by
  induction l₁ with
  | nil => simp
  | cons p rest ih =>
    obtain ⟨k, w⟩ := p
    by_cases hk : k = n
    · simp [alookup, hk] at h
    · simp [alookup, hk] at h ⊢
      exact ih h

lemma firstOccurAux_congr {s₁ s₂ : List String} (h : ∀ x, x ∈ s₁ ↔ x ∈ s₂) :
    ∀ l, firstOccurAux s₁ l = firstOccurAux s₂ l := by
  intro l
  induction l generalizing s₁ s₂ with
  | nil => rfl
  | cons n rest ih =>
    by_cases hn : n ∈ s₁
    · simp [firstOccurAux, hn, (h n).1 hn, ih h]
    · have hn₂ : n ∉ s₂ := fun hc => hn ((h n).2 hc)
      have hcons : ∀ x, x ∈ n :: s₁ ↔ x ∈ n :: s₂ := by
        intro x
        simp only [List.mem_cons]
        exact or_congr Iff.rfl (h x)
      simp [firstOccurAux, hn, hn₂, ih hcons]

lemma mem_firstOccurAux (l : List String) :
    ∀ (seen : List String) (x : String),
      x ∈ firstOccurAux seen l ↔ (x ∈ l ∧ x ∉ seen) := by
  induction l with
  | nil => intro seen x; simp [firstOccurAux]
  | cons n rest ih =>
    intro seen x
    by_cases hn : n ∈ seen
    · rw [show firstOccurAux seen (n :: rest) = firstOccurAux seen rest from by
        simp [firstOccurAux, hn]]
      rw [ih seen x]
      constructor
      · rintro ⟨hx, hxs⟩
        exact ⟨List.mem_cons_of_mem _ hx, hxs⟩
      · rintro ⟨hx, hxs⟩
        rcases List.mem_cons.1 hx with rfl | hx
        · exact absurd hn hxs
        · exact ⟨hx, hxs⟩
    · rw [show firstOccurAux seen (n :: rest) = n :: firstOccurAux (n :: seen) rest from by
        simp [firstOccurAux, hn]]
      rw [List.mem_cons, ih (n :: seen) x]
      by_cases hxn : x = n
      · subst hxn
        simp [hn]
      · simp only [List.mem_cons, hxn, false_or]

lemma firstOccurAux_nodup (l : List String) :
    ∀ seen : List String, (firstOccurAux seen l).Nodup := by
  induction l with
  | nil => intro seen; simp [firstOccurAux]
  | cons n rest ih =>
    intro seen
    by_cases hn : n ∈ seen
    · simpa [firstOccurAux, hn] using ih seen
    · have hnotin : n ∉ firstOccurAux (n :: seen) rest := by
        rw [mem_firstOccurAux]
        simp
      simpa [firstOccurAux, hn] using ⟨hnotin, ih (n :: seen)⟩

lemma specRender_congr {f g : String → Nat} :
    ∀ ts : List Tok, (∀ n ∈ tokenNames ts, f n = g n) →
      specRender f ts = specRender g ts := by
  intro ts
  induction ts with
  | nil => intro _; rfl
  | cons t rest ih =>
    intro h
    cases t with
    | lit c =>
      simp only [specRender]
      rw [ih (by intro n hn; exact h n (by simpa [tokenNames] using hn))]
    | param n =>
      simp only [specRender]
      rw [h n (by simp [tokenNames]), ih (by
        intro m hm
        exact h m (by simp [tokenNames, hm]))]

lemma alookup_enumFrom {d : List String} {n : String} (h : n ∈ d) :
    ∀ i : Nat, alookup (enumFrom i d) n = some (i + posOf d n) := by
  induction d with
  | nil => simp at h
  | cons k rest ih =>
    intro i
    by_cases hk : k = n
    · simp [enumFrom, alookup, posOf, hk]
    · have hmem : n ∈ rest := by
        rcases List.mem_cons.1 h with rfl | hm
        · exact absurd rfl hk
        · exact hm
      simp only [enumFrom, alookup, posOf, hk, if_false]
      rw [ih hmem (i + 1)]
      congr 1
      omega

lemma getElem?_map_posOf {f : String → JSVal} {d : List String} {n : String}
    (h : n ∈ d) : (d.map f)[posOf d n]? = some (f n) := by
  induction d with
  | nil => simp at h
  | cons k rest ih =>
    by_cases hk : k = n
    · simp [posOf, hk]
    · have hmem : n ∈ rest := by
        rcases List.mem_cons.1 h with rfl | hm
        · exact absurd rfl hk
        · exact hm
      simp [posOf, hk, ih hmem]

/-- Invariant of the replacement fold: started from a parameter map `pm`
with next index `pm.length + 1` (as maintained by the source, which starts
at `1` with the empty map and increments on every insertion), the fold
extends the map with the not-yet-seen names in order of first appearance
at consecutive indices, appends exactly their values, and renders every
token through the finished assignment. -/
lemma runReplace_spec (ps : Params) (ts : List Tok) :
    ∀ (pm : List (String × Nat)) (vals : List JSVal),
      runReplace ps ts ⟨pm, pm.length + 1, vals⟩ =
        (specRender
            (lookupIdx (pm ++ enumFrom (pm.length + 1)
              (firstOccurAux (pm.map Prod.fst) (tokenNames ts)))) ts,
         ⟨pm ++ enumFrom (pm.length + 1)
              (firstOccurAux (pm.map Prod.fst) (tokenNames ts)),
          (pm ++ enumFrom (pm.length + 1)
              (firstOccurAux (pm.map Prod.fst) (tokenNames ts))).length + 1,
          vals ++ (firstOccurAux (pm.map Prod.fst) (tokenNames ts)).map
            (lookupParam ps)⟩) := by
  induction ts with
  | nil =>
    intro pm vals
    simp [runReplace, specRender, tokenNames, firstOccurAux, enumFrom]
  | cons t ts ih =>
    intro pm vals
    cases t with
    | lit c =>
      have hfo : tokenNames (Tok.lit c :: ts) = tokenNames ts := by
        simp [tokenNames]
      simp only [runReplace, specRender, hfo, ih pm vals]
    | param n =>
      cases h : alookup pm n with
      | some i =>
        have hmem : n ∈ pm.map Prod.fst := alookup_mem_of_some h
        have hfo : firstOccurAux (pm.map Prod.fst)
              (tokenNames (Tok.param n :: ts)) =
            firstOccurAux (pm.map Prod.fst) (tokenNames ts) := by
          simp [tokenNames, firstOccurAux, hmem]
        have hlook : lookupIdx (pm ++ enumFrom (pm.length + 1)
              (firstOccurAux (pm.map Prod.fst) (tokenNames ts))) n = i := by
          simp [lookupIdx, alookup_append_some h]
        simp only [runReplace, h]
        rw [hfo]
        simp only [specRender]
        rw [ih pm vals, hlook]
      | none =>
        have hnot : n ∉ pm.map Prod.fst := alookup_not_mem_of_none h
        have hfo : firstOccurAux (pm.map Prod.fst)
              (tokenNames (Tok.param n :: ts)) =
            n :: firstOccurAux (n :: pm.map Prod.fst) (tokenNames ts) := by
          simp [tokenNames, firstOccurAux, hnot]
        have hfo2 : firstOccurAux ((pm ++ [(n, pm.length + 1)]).map Prod.fst)
              (tokenNames ts) =
            firstOccurAux (n :: pm.map Prod.fst) (tokenNames ts) :=
          firstOccurAux_congr (by intro x; simp [or_comm]) _
        have hlen : (pm ++ [(n, pm.length + 1)]).length = pm.length + 1 := by
          simp
        have ih2 := ih (pm ++ [(n, pm.length + 1)]) (vals ++ [lookupParam ps n])
        rw [hlen, hfo2] at ih2
        have hfinal : pm ++ enumFrom (pm.length + 1)
              (n :: firstOccurAux (n :: pm.map Prod.fst) (tokenNames ts)) =
            (pm ++ [(n, pm.length + 1)]) ++ enumFrom (pm.length + 1 + 1)
              (firstOccurAux (n :: pm.map Prod.fst) (tokenNames ts)) := by
          simp [enumFrom, List.append_assoc]
        have hlook : lookupIdx (pm ++ enumFrom (pm.length + 1)
              (n :: firstOccurAux (n :: pm.map Prod.fst) (tokenNames ts))) n =
            pm.length + 1 := by
          simp [lookupIdx, alookup_append_none h, enumFrom, alookup]
        simp only [runReplace, h]
        rw [hfo]
        simp only [specRender]
        rw [ih2, hlook, hfinal]
        simp [List.append_assoc]

/-- Claim C1: for every query text and every non-empty named-parameter
mapping, `transformQuery` assigns each distinct name appearing in the text
exactly one positional index, indices given in order of first appearance
starting at 1 (the rendered text replaces every token occurrence, repeated
ones included, by the placeholder of that one index), and the value list is
exactly the first-appearance list of distinct names mapped through the
parameter lookup — so its length equals the number of distinct names. -/
theorem c1_transform_first_occurrence (q : String) (ps : Params)
    (hps : ps ≠ []) :
    transformQuery q ps =
      (specRender
          (fun n => posOf (firstOccurAux [] (tokenNames (lex q.data))) n + 1)
          (lex q.data),
       (firstOccurAux [] (tokenNames (lex q.data))).map (lookupParam ps))
    ∧ (firstOccurAux [] (tokenNames (lex q.data))).Nodup
    ∧ (∀ n, n ∈ firstOccurAux [] (tokenNames (lex q.data)) ↔
        n ∈ tokenNames (lex q.data))
    ∧ (transformQuery q ps).2.length =
        (firstOccurAux [] (tokenNames (lex q.data))).length := by
  obtain ⟨p, ps', rfl⟩ : ∃ p ps', ps = p :: ps' := by
    cases ps with
    | nil => exact absurd rfl hps
    | cons p ps' => exact ⟨p, ps', rfl⟩
  have hTQ : transformQuery q (p :: ps') =
      ((runReplace (p :: ps') (lex q.data) ⟨[], 1, []⟩).1,
       (runReplace (p :: ps') (lex q.data) ⟨[], 1, []⟩).2.values) := rfl
  have hmain := runReplace_spec (p :: ps') (lex q.data) [] []
  simp only [List.map_nil, List.length_nil, Nat.zero_add, List.nil_append]
    at hmain
  have hassign : specRender
      (lookupIdx (enumFrom 1 (firstOccurAux [] (tokenNames (lex q.data)))))
      (lex q.data) =
      specRender
        (fun n => posOf (firstOccurAux [] (tokenNames (lex q.data))) n + 1)
        (lex q.data) := by
    apply specRender_congr
    intro n hn
    have hd : n ∈ firstOccurAux [] (tokenNames (lex q.data)) := by
      rw [mem_firstOccurAux]
      exact ⟨hn, by simp⟩
    simp [lookupIdx, alookup_enumFrom hd, Nat.add_comm]
  refine ⟨?_, firstOccurAux_nodup _ _, ?_, ?_⟩
  · rw [hTQ, hmain, hassign]
  · intro n
    rw [mem_firstOccurAux]
    simp
  · rw [hTQ, hmain]
    simp

/-- Claim C9: a named-parameter token whose name has no entry in the
supplied non-empty mapping does not make the translation fail: the token
is still replaced by the positional placeholder of its first-appearance
index, and the value list holds `undefined` at that position. -/
theorem c9_missing_key_is_undefined (q : String) (ps : Params) (n : String)
    (hps : ps ≠ []) (htok : n ∈ tokenNames (lex q.data))
    (hmiss : alookup ps n = none) :
    ((transformQuery q ps).2)[posOf (firstOccurAux []
        (tokenNames (lex q.data))) n]? = some JSVal.undef
    ∧ (transformQuery q ps).1 =
        specRender
          (fun m => posOf (firstOccurAux [] (tokenNames (lex q.data))) m + 1)
          (lex q.data) := by
  obtain ⟨p, ps', rfl⟩ : ∃ p ps', ps = p :: ps' := by
    cases ps with
    | nil => exact absurd rfl hps
    | cons p ps' => exact ⟨p, ps', rfl⟩
  have hTQ : transformQuery q (p :: ps') =
      ((runReplace (p :: ps') (lex q.data) ⟨[], 1, []⟩).1,
       (runReplace (p :: ps') (lex q.data) ⟨[], 1, []⟩).2.values) := rfl
  have hmain := runReplace_spec (p :: ps') (lex q.data) [] []
  simp only [List.map_nil, List.length_nil, Nat.zero_add, List.nil_append]
    at hmain
  have hd : n ∈ firstOccurAux [] (tokenNames (lex q.data)) := by
    rw [mem_firstOccurAux]
    exact ⟨htok, by simp⟩
  constructor
  · rw [hTQ, hmain]
    have hget := getElem?_map_posOf (f := lookupParam (p :: ps')) hd
    simp only [hget]
    simp [lookupParam, hmiss]
  · have hassign : specRender
        (lookupIdx (enumFrom 1 (firstOccurAux [] (tokenNames (lex q.data)))))
        (lex q.data) =
        specRender
          (fun m => posOf (firstOccurAux [] (tokenNames (lex q.data))) m + 1)
          (lex q.data) := by
      apply specRender_congr
      intro m hm
      have hdm : m ∈ firstOccurAux [] (tokenNames (lex q.data)) := by
        rw [mem_firstOccurAux]
        exact ⟨hm, by simp⟩
      simp [lookupIdx, alookup_enumFrom hdm, Nat.add_comm]
    rw [hTQ, hmain, hassign]

/-- Witness for C1 at the spec's own example: `"... a=@x AND b=@x"` with
`{x: 5}` gives one reused placeholder and the single value `[5]`. -/
theorem c1_transform_first_occurrence_witness :
    transformQuery "a=@x AND b=@x" [("x", JSVal.num 5)] =
      (specRender
          (fun n => posOf (firstOccurAux []
            (tokenNames (lex "a=@x AND b=@x".data))) n + 1)
          (lex "a=@x AND b=@x".data),
       (firstOccurAux [] (tokenNames (lex "a=@x AND b=@x".data))).map
          (lookupParam [("x", JSVal.num 5)]))
    ∧ (firstOccurAux [] (tokenNames (lex "a=@x AND b=@x".data))).Nodup
    ∧ (∀ n, n ∈ firstOccurAux [] (tokenNames (lex "a=@x AND b=@x".data)) ↔
        n ∈ tokenNames (lex "a=@x AND b=@x".data))
    ∧ (transformQuery "a=@x AND b=@x" [("x", JSVal.num 5)]).2.length =
        (firstOccurAux [] (tokenNames (lex "a=@x AND b=@x".data))).length :=
  c1_transform_first_occurrence "a=@x AND b=@x" [("x", JSVal.num 5)]
    (by decide)

/-- Witness for C9: the token `@a` with mapping `{b: 1}` resolves to an
`undefined` value at position 0, not an error. -/
theorem c9_missing_key_is_undefined_witness :
    ((transformQuery "SELECT @a" [("b", JSVal.num 1)]).2)[posOf
        (firstOccurAux [] (tokenNames (lex "SELECT @a".data))) "a"]? =
      some JSVal.undef
    ∧ (transformQuery "SELECT @a" [("b", JSVal.num 1)]).1 =
        specRender
          (fun m => posOf (firstOccurAux []
            (tokenNames (lex "SELECT @a".data))) m + 1)
          (lex "SELECT @a".data) :=
  c9_missing_key_is_undefined "SELECT @a" [("b", JSVal.num 1)] "a"
    (by decide) (by decide) (by decide)

/-- A result row, as the driver's `res.rows` elements: column name to
value. -/
abbrev Row := List (String × JSVal)

/-- The outcome of one driver `client.query` call: a resolved result with
its rows, or a rejection carrying an error. The driver is the external
collaborator, so the outcome is a parameter of the model. -/
inductive QueryOutcome where
  | ok (rows : List Row)
  | err (e : String)
deriving DecidableEq

/-- `PostgresStatement` (part_001): one query text and an optionally
acquired pooled connection; `client = none` is the `undefined` handle. -/
structure PostgresStatement where
  query : String
  client : Option Unit
deriving DecidableEq

/-- What one entry-point call did: the value returned or error raised, the
statement's `_client` field afterwards, and how many `release()` calls the
entry point performed. -/
structure StmtEffect (α : Type) where
  result : Except String α
  client : Option Unit
  releases : Nat

/-- `PostgresStatement.run` (part_001, lines 37-46): translate, execute via
`this._client?.query` (`undefined` result when no client), and in the
`finally` block release through `this._client?.release()` and clear the
handle. A missing client means no query and no release. -/
def PostgresStatement.run (st : PostgresStatement) (ps : Params)
    (o : QueryOutcome) : StmtEffect (Option (List Row)) :=
  let _tq := transformQuery st.query ps
  match st.client with
  | none => ⟨Except.ok none, none, 0⟩
  | some _ =>
    match o with
    | QueryOutcome.ok rows => ⟨Except.ok (some rows), none, 1⟩
    | QueryOutcome.err e => ⟨Except.error e, none, 1⟩

/-- `PostgresStatement.all` (part_001, lines 48-57): as `run`, but the
returned value is `res?.rows || []` — the empty list both when the result
has no rows and when no client was ever acquired. -/
def PostgresStatement.all (st : PostgresStatement) (ps : Params)
    (o : QueryOutcome) : StmtEffect (List Row) :=
  let _tq := transformQuery st.query ps
  match st.client with
  | none => ⟨Except.ok [], none, 0⟩
  | some _ =>
    match o with
    | QueryOutcome.ok rows => ⟨Except.ok rows, none, 1⟩
    | QueryOutcome.err e => ⟨Except.error e, none, 1⟩

/-- `PostgresStatement.get` (part_001, lines 59-68): as `run`, but the
returned value is `res?.rows[0]` — `undefined` when there are no rows or
no client. -/
def PostgresStatement.get (st : PostgresStatement) (ps : Params)
    (o : QueryOutcome) : StmtEffect (Option Row) :=
  let _tq := transformQuery st.query ps
  match st.client with
  | none => ⟨Except.ok none, none, 0⟩
  | some _ =>
    match o with
    | QueryOutcome.ok rows => ⟨Except.ok rows.head?, none, 1⟩
    | QueryOutcome.err e => ⟨Except.error e, none, 1⟩

/-- Which of the three entry points a call uses. -/
inductive CallKind where
  | runK
  | allK
  | getK
deriving DecidableEq

/-- One entry-point call, observed through the statement state it leaves
behind and the number of releases it performed. -/
def callStmt (k : CallKind) (st : PostgresStatement) (ps : Params)
    (o : QueryOutcome) : PostgresStatement × Nat :=
  match k with
  | CallKind.runK => (⟨st.query, (st.run ps o).client⟩, (st.run ps o).releases)
  | CallKind.allK => (⟨st.query, (st.all ps o).client⟩, (st.all ps o).releases)
  | CallKind.getK => (⟨st.query, (st.get ps o).client⟩, (st.get ps o).releases)

/-- A sequence of entry-point calls against one statement, with the total
number of releases performed. -/
def runCalls : PostgresStatement → List (CallKind × Params × QueryOutcome) →
    PostgresStatement × Nat
  | st, [] => (st, 0)
  | st, (k, ps, o) :: rest =>
    ((runCalls (callStmt k st ps o).1 rest).1,
     (callStmt k st ps o).2 + (runCalls (callStmt k st ps o).1 rest).2)

lemma callStmt_none (k : CallKind) (q : String) (ps : Params)
    (o : QueryOutcome) : callStmt k ⟨q, none⟩ ps o = (⟨q, none⟩, 0) := by
  cases k <;> cases o <;> rfl

lemma callStmt_some (k : CallKind) (q : String) (ps : Params)
    (o : QueryOutcome) : callStmt k ⟨q, some ()⟩ ps o = (⟨q, none⟩, 1) := by
  cases k <;> cases o <;> rfl

lemma runCalls_none (q : String) :
    ∀ calls : List (CallKind × Params × QueryOutcome),
      runCalls ⟨q, none⟩ calls = (⟨q, none⟩, 0) := by
  intro calls
  induction calls with
  | nil => rfl
  | cons c rest ih =>
    obtain ⟨k, ps, o⟩ := c
    simp [runCalls, callStmt_none, ih]

/-- Claim C5: a statement constructed with a connection releases it exactly
once over any non-empty sequence of `run`/`all`/`get` calls, whatever each
call's kind and driver outcome; the first call does the single release and
every later call performs none. A statement that never had a connection
never releases. -/
theorem c5_statement_single_release (q : String)
    (calls : List (CallKind × Params × QueryOutcome)) (h : calls ≠ []) :
    (runCalls ⟨q, some ()⟩ calls).2 = 1
    ∧ (runCalls ⟨q, some ()⟩ calls).1.client = none
    ∧ (runCalls ⟨q, none⟩ calls).2 = 0 := by
  cases calls with
  | nil => exact absurd rfl h
  | cons c rest =>
    obtain ⟨k, ps, o⟩ := c
    refine ⟨?_, ?_, ?_⟩
    · simp [runCalls, callStmt_some, runCalls_none]
    · simp [runCalls, callStmt_some, runCalls_none]
    · simp [runCalls, callStmt_none, runCalls_none]

/-- Witness for C5: a statement with a connection, first queried with a
driver failure through `run` and then through `all`, releases exactly
once. -/
theorem c5_statement_single_release_witness :
    (runCalls ⟨"SELECT 1", some ()⟩
        [(CallKind.runK, [], QueryOutcome.err "boom"),
         (CallKind.allK, [], QueryOutcome.ok [])]).2 = 1
    ∧ (runCalls ⟨"SELECT 1", some ()⟩
        [(CallKind.runK, [], QueryOutcome.err "boom"),
         (CallKind.allK, [], QueryOutcome.ok [])]).1.client = none
    ∧ (runCalls ⟨"SELECT 1", none⟩
        [(CallKind.runK, [], QueryOutcome.err "boom"),
         (CallKind.allK, [], QueryOutcome.ok [])]).2 = 0 :=
  c5_statement_single_release "SELECT 1"
    [(CallKind.runK, [], QueryOutcome.err "boom"),
     (CallKind.allK, [], QueryOutcome.ok [])] (by decide)

/-- Claim C6: when the driver resolves with zero rows, `all` returns the
empty sequence and `get` returns the explicit absence marker; neither
raises. The same holds when no client was ever acquired. -/
theorem c6_empty_result_all_get (q : String) (ps : Params) :
    (PostgresStatement.all ⟨q, some ()⟩ ps (QueryOutcome.ok [])).result =
      Except.ok []
    ∧ (PostgresStatement.get ⟨q, some ()⟩ ps (QueryOutcome.ok [])).result =
      Except.ok none
    ∧ (PostgresStatement.all ⟨q, none⟩ ps (QueryOutcome.ok [])).result =
      Except.ok []
    ∧ (PostgresStatement.get ⟨q, none⟩ ps (QueryOutcome.ok [])).result =
      Except.ok none := by
  refine ⟨rfl, rfl, rfl, rfl⟩

/-- The outcomes of the driver calls a `transaction` invocation can make:
whether the `BEGIN` query rejects, whether the caller-supplied work
function raises, whether the `COMMIT` query rejects, and whether the
`ROLLBACK` query rejects; `none` is success. -/
structure TxOutcomes where
  beginErr : Option String
  fnErr : Option String
  commitErr : Option String
  rollbackErr : Option String
deriving DecidableEq

/-- The observable trace of one `transaction` invocation: how many COMMIT
and ROLLBACK statements were issued on the connection, how many times the
connection was released, and what the caller observes. -/
structure TxTrace where
  commits : Nat
  rollbacks : Nat
  releases : Nat
  result : Except String Unit

/-- `PostgresAdapter.transaction` (PostgresAdapter.ts, lines 24-51),
traced path by path. With no client, throw before BEGIN. Otherwise issue
BEGIN (a rejection propagates with nothing else done). Then run `fn`; if
it completes, `commit()` issues COMMIT and — only when COMMIT resolves —
releases; a COMMIT rejection is caught by the catch block, whose
`rollback()` issues ROLLBACK and, when it resolves, releases, after which
the caught error is rethrown; a ROLLBACK rejection propagates instead,
skipping the release. If `fn` raises, the same `rollback()` runs and the
original error is rethrown (or the ROLLBACK rejection propagates, again
skipping the release). The success path returns the re-invocable commit
handle, modelled as `Except.ok ()`. -/
def PostgresAdapter.transaction (clientAvailable : Bool) (o : TxOutcomes) :
    TxTrace :=
  if clientAvailable = false then
    ⟨0, 0, 0, Except.error "Database client is not available for transaction."⟩
  else
    match o.beginErr with
    | some e => ⟨0, 0, 0, Except.error e⟩
    | none =>
      match o.fnErr with
      | none =>
        match o.commitErr with
        | none => ⟨1, 0, 1, Except.ok ()⟩
        | some e =>
          match o.rollbackErr with
          | none => ⟨1, 1, 1, Except.error e⟩
          | some e₂ => ⟨1, 1, 0, Except.error e₂⟩
      | some f =>
        match o.rollbackErr with
        | none => ⟨0, 1, 1, Except.error f⟩
        | some e₂ => ⟨0, 1, 0, Except.error e₂⟩

/-- Counterexample to claim C2 as stated: in the invocation that acquires
a connection, runs the work to completion, and then has the COMMIT query
itself rejected, the catch block also issues ROLLBACK — so both COMMIT and
ROLLBACK are issued on the connection in one invocation, not exactly one
of them. -/
theorem c2_transaction_counterexample :
    ¬ (((PostgresAdapter.transaction true
          ⟨none, none, some "commit failed", none⟩).commits = 1
        ∧ (PostgresAdapter.transaction true
          ⟨none, none, some "commit failed", none⟩).rollbacks = 0)
      ∨ ((PostgresAdapter.transaction true
          ⟨none, none, some "commit failed", none⟩).commits = 0
        ∧ (PostgresAdapter.transaction true
          ⟨none, none, some "commit failed", none⟩).rollbacks = 1)) := by
  decide

/-- Claim C2 as amended: provided the BEGIN query succeeds, a ROLLBACK (if
one is issued) succeeds, and — when the work function completes — the
COMMIT succeeds, every invocation that acquires a connection issues
exactly one of COMMIT or ROLLBACK and releases the connection exactly
once, whether the work function completes or raises; a raising work
function's original error reaches the caller. -/
theorem c2_transaction_one_terminal_one_release (o : TxOutcomes)
    (hb : o.beginErr = none) (hr : o.rollbackErr = none)
    (hc : o.fnErr = none → o.commitErr = none) :
    (((PostgresAdapter.transaction true o).commits = 1
        ∧ (PostgresAdapter.transaction true o).rollbacks = 0)
      ∨ ((PostgresAdapter.transaction true o).commits = 0
        ∧ (PostgresAdapter.transaction true o).rollbacks = 1))
    ∧ (PostgresAdapter.transaction true o).releases = 1
    ∧ (∀ f, o.fnErr = some f →
        (PostgresAdapter.transaction true o).result = Except.error f) := by
  obtain ⟨b, f, c, r⟩ := o
  cases b with
  | some e => simp at hb
  | none =>
    cases r with
    | some e => simp at hr
    | none =>
      cases f with
      | none =>
        have hcnone : c = none := hc rfl
        subst hcnone
        refine ⟨Or.inl ⟨rfl, rfl⟩, rfl, ?_⟩
        intro f hf
        simp at hf
      | some f₀ =>
        refine ⟨Or.inr ⟨rfl, rfl⟩, rfl, ?_⟩
        intro f₁ hf
        simp only [Option.some.injEq] at hf
        subst hf
        rfl

/-- Witness for the amended C2 at a raising work function with healthy
BEGIN and ROLLBACK: one ROLLBACK, one release, the original error
observed. -/
theorem c2_transaction_one_terminal_one_release_witness :
    (((PostgresAdapter.transaction true
          ⟨none, some "work failed", none, none⟩).commits = 1
        ∧ (PostgresAdapter.transaction true
          ⟨none, some "work failed", none, none⟩).rollbacks = 0)
      ∨ ((PostgresAdapter.transaction true
          ⟨none, some "work failed", none, none⟩).commits = 0
        ∧ (PostgresAdapter.transaction true
          ⟨none, some "work failed", none, none⟩).rollbacks = 1))
    ∧ (PostgresAdapter.transaction true
        ⟨none, some "work failed", none, none⟩).releases = 1
    ∧ (∀ f, (⟨none, some "work failed", none, none⟩ : TxOutcomes).fnErr =
          some f →
        (PostgresAdapter.transaction true
          ⟨none, some "work failed", none, none⟩).result = Except.error f) :=
  c2_transaction_one_terminal_one_release
    ⟨none, some "work failed", none, none⟩ rfl rfl (fun h => nomatch h)

/-- A row of `information_schema.columns` as read by
`tableColumnInformation`. -/
structure InfoRow where
  column_name : String
  data_type : String
  is_nullable : String
  column_default : Option String
deriving DecidableEq

/-- The `TableColumnInfo` record the adapter returns. -/
structure TableColumnInfo where
  cid : Nat
  name : String
  type : String
  notnull : Nat
  dflt_value : Option String
  pk : Nat
deriving DecidableEq

/-- Outcome of the catalog query inside `tableColumnInformation`. -/
inductive InfoOutcome where
  | ok (rows : List InfoRow)
  | err (e : String)
deriving DecidableEq

/-- `PostgresAdapter.tableColumnInformation` (PostgresAdapter.ts, lines
53-76), paired with the number of `client.release()` calls it performs.
With no client it throws before querying. Otherwise it awaits the catalog
query and only then calls `client.release()` on the next line — there is
no try/finally, so a rejected query propagates with the release never
executed. On success the rows are mapped to `TableColumnInfo` with
`pk = 0` always. -/
def PostgresAdapter.tableColumnInformation (clientAvailable : Bool)
    (o : InfoOutcome) : Except String (List TableColumnInfo) × Nat :=
  if clientAvailable = false then
    (Except.error "Database client is not available.", 0)
  else
    match o with
    | InfoOutcome.err e => (Except.error e, 0)
    | InfoOutcome.ok rows =>
      (Except.ok (rows.mapIdx fun index row =>
        ⟨index, row.column_name, row.data_type,
          if row.is_nullable = "NO" then 1 else 0,
          row.column_default, 0⟩), 1)

/-- Claim C3 fails on the code: when the driver query inside
`tableColumnInformation` rejects on an acquired connection, the error
reaches the caller with zero releases performed — the connection leaks,
while every success path releases once. -/
theorem c3_tableColumnInformation_leaks_on_error :
    PostgresAdapter.tableColumnInformation true
        (InfoOutcome.err "connection terminated") =
      (Except.error "connection terminated", 0)
    ∧ ∀ rows, (PostgresAdapter.tableColumnInformation true
        (InfoOutcome.ok rows)).2 = 1 := by
  exact ⟨rfl, fun rows => rfl⟩

/-- One accumulated column specification (data model of the core package's
SchemaTableBuilder, as the spec describes it): optional name, optional
datatype, ordered constraints, autoincrement flag. A spec with no name is
a modifier entry. -/
structure ColumnSpec where
  name : Option String
  datatype : Option String
  constraints : List String
  autoincrement : Bool
deriving DecidableEq

/-- The fluent table builder: the ordered column sequence it accumulates. -/
structure PostgresTableSchemaBuilder where
  columns : List ColumnSpec
deriving DecidableEq

/-- Modelled from the spec: `SchemaTableBuilder.addColumn` lives in the
external core package `@iamkirbki/database-handler-core`, which is not
part of this repository. Per the spec (sections 3 and 4.3), a spec
carrying a name appends a new column, while a nameless modifier entry
attaches to the most recently added column: its constraints are appended
to that column's and its autoincrement flag is merged in. (A modifier on
an empty builder never reaches this function in the source: every modifier
method guards for it first.) -/
def SchemaTableBuilder.addColumn (b : PostgresTableSchemaBuilder)
    (spec : ColumnSpec) : PostgresTableSchemaBuilder :=
  match spec.name with
  | some _ => ⟨b.columns ++ [spec]⟩
  | none =>
    match b.columns.getLast? with
    | none => ⟨[spec]⟩
    | some last =>
      ⟨b.columns.dropLast ++
        [⟨last.name, last.datatype, last.constraints ++ spec.constraints,
          last.autoincrement || spec.autoincrement⟩]⟩

/-- JS array `join(sep)`. -/
def joinSep : String → List String → String
  | _, [] => ""
  | _, [x] => x
  | sep, x :: y :: rest => x ++ sep ++ joinSep sep (y :: rest)

/-- JS `String.prototype.trim` on our texts: strip whitespace from both
ends. -/
def jsTrim (s : String) : String :=
  String.mk
    (((s.data.dropWhile Char.isWhitespace).reverse.dropWhile
        Char.isWhitespace).reverse)

/-- JS template interpolation of a possibly-undefined name:
an undefined `column.name` renders as the text `undefined`. -/
def jsShow : Option String → String
  | some s => s
  | none => "undefined"

/-- `v.replace(/'/g, "''")` in `enum` (PostgresTableSchemaBuilder.ts, line
86): every single-quote character is replaced by two. -/
def escapeQuotes (s : String) : String :=
  String.mk (s.data.flatMap fun c => if c = sqChar then [sqChar, sqChar] else [c])

/-- `PostgresTableSchemaBuilder.string` (lines 30-35). -/
def PostgresTableSchemaBuilder.string (b : PostgresTableSchemaBuilder)
    (name : String) (length : Option Nat) : PostgresTableSchemaBuilder :=
  SchemaTableBuilder.addColumn b
    ⟨some name,
      some (match length with
        | some l => "VARCHAR(" ++ toString l ++ ")"
        | none => "VARCHAR"),
      [], false⟩

/-- `PostgresTableSchemaBuilder.text` (lines 37-42). -/
def PostgresTableSchemaBuilder.text (b : PostgresTableSchemaBuilder)
    (name : String) : PostgresTableSchemaBuilder :=
  SchemaTableBuilder.addColumn b ⟨some name, some "TEXT", [], false⟩

/-- `PostgresTableSchemaBuilder.integer` (lines 44-49). -/
def PostgresTableSchemaBuilder.integer (b : PostgresTableSchemaBuilder)
    (name : String) : PostgresTableSchemaBuilder :=
  SchemaTableBuilder.addColumn b ⟨some name, some "INTEGER", [], false⟩

/-- `PostgresTableSchemaBuilder.enum` (lines 83-92): a TEXT column with an
inline CHECK membership constraint over the quote-doubled values. -/
def PostgresTableSchemaBuilder.enum (b : PostgresTableSchemaBuilder)
    (name : String) (values : List String) : PostgresTableSchemaBuilder :=
  let quotedValues :=
    joinSep ", " (values.map fun v => sqStr ++ escapeQuotes v ++ sqStr)
  SchemaTableBuilder.addColumn b
    ⟨some name, some "TEXT",
      ["CHECK (" ++ name ++ " IN (" ++ quotedValues ++ "))"], false⟩

/-- `PostgresTableSchemaBuilder.increments` (lines 125-132). -/
def PostgresTableSchemaBuilder.increments (b : PostgresTableSchemaBuilder) :
    Except String PostgresTableSchemaBuilder :=
  if b.columns.length = 0 then
    Except.error
      "increments() requires a previous column. Call a datatype method first."
  else
    Except.ok (SchemaTableBuilder.addColumn b ⟨none, none, [], true⟩)

/-- `PostgresTableSchemaBuilder.primaryKey` (lines 134-141). -/
def PostgresTableSchemaBuilder.primaryKey (b : PostgresTableSchemaBuilder) :
    Except String PostgresTableSchemaBuilder :=
  if b.columns.length = 0 then
    Except.error
      "primaryKey() requires a previous column. Call a datatype method first."
  else
    Except.ok (SchemaTableBuilder.addColumn b ⟨none, none, ["PRIMARY KEY"], false⟩)

/-- `PostgresTableSchemaBuilder.foreignKey` (lines 143-151). -/
def PostgresTableSchemaBuilder.foreignKey (b : PostgresTableSchemaBuilder)
    (referenceTable referenceColumn : String) :
    Except String PostgresTableSchemaBuilder :=
  if b.columns.length = 0 then
    Except.error
      "foreignKey() requires a previous column. Call a datatype method first."
  else
    Except.ok (SchemaTableBuilder.addColumn b
      ⟨none, none,
        ["REFERENCES " ++ referenceTable ++ "(" ++ referenceColumn ++ ")"],
        false⟩)

/-- `PostgresTableSchemaBuilder.unique` (lines 153-160). -/
def PostgresTableSchemaBuilder.unique (b : PostgresTableSchemaBuilder) :
    Except String PostgresTableSchemaBuilder :=
  if b.columns.length = 0 then
    Except.error
      "unique() requires a previous column. Call a datatype method first."
  else
    Except.ok (SchemaTableBuilder.addColumn b ⟨none, none, ["UNIQUE"], false⟩)

/-- `PostgresTableSchemaBuilder.nullable` (lines 162-169). -/
def PostgresTableSchemaBuilder.nullable (b : PostgresTableSchemaBuilder) :
    Except String PostgresTableSchemaBuilder :=
  if b.columns.length = 0 then
    Except.error
      "nullable() requires a previous column. Call a datatype method first."
  else
    Except.ok (SchemaTableBuilder.addColumn b ⟨none, none, ["NULLABLE"], false⟩)

/-- The rendered default literal of `defaultTo` (lines 175-183): strings
are wrapped in single quotes with the value inserted verbatim, numbers and
booleans are interpolated literally, anything else goes through the
generic string conversion. -/
def renderDefault : JSVal → String
  | JSVal.str s => sqStr ++ s ++ sqStr
  | JSVal.num n => toString n
  | JSVal.bool b => if b then "true" else "false"
  | JSVal.undef => "undefined"

/-- `PostgresTableSchemaBuilder.defaultTo` (lines 171-188). -/
def PostgresTableSchemaBuilder.defaultTo (b : PostgresTableSchemaBuilder)
    (value : JSVal) : Except String PostgresTableSchemaBuilder :=
  if b.columns.length = 0 then
    Except.error
      "defaultTo() requires a previous column. Call a datatype method first."
  else
    Except.ok (SchemaTableBuilder.addColumn b
      ⟨none, none, ["DEFAULT " ++ renderDefault value], false⟩)

/-- One column definition as rendered by `build` (lines 4-20):
`"<name> <datatype or empty>"` trimmed, the constraints space-joined and
appended when present, the whole thing superseded by `"<name> SERIAL"`
when the column is marked autoincrement. -/
def buildColumn (c : ColumnSpec) : String :=
  let base := jsTrim (jsShow c.name ++ " " ++ c.datatype.getD "")
  let withConstraints :=
    if c.constraints.length > 0 then
      base ++ " " ++ joinSep " " c.constraints
    else base
  if c.autoincrement then jsShow c.name ++ " SERIAL" else withConstraints

/-- `PostgresTableSchemaBuilder.build` (lines 4-20): the parenthesized,
comma-joined column definitions. -/
def PostgresTableSchemaBuilder.build (b : PostgresTableSchemaBuilder) :
    String :=
  "(" ++ joinSep ", " (b.columns.map buildColumn) ++ ")"

example : (PostgresTableSchemaBuilder.enum ⟨[]⟩ "status"
    ["draft", "published"]).build =
    "(status TEXT CHECK (status IN (" ++ sqStr ++ "draft" ++ sqStr ++ ", " ++
      sqStr ++ "published" ++ sqStr ++ ")))" := by decide

example : ((PostgresTableSchemaBuilder.integer ⟨[]⟩ "id").primaryKey.map
    PostgresTableSchemaBuilder.build) = Except.ok "(id INTEGER PRIMARY KEY)" := by
  rfl

example : (((PostgresTableSchemaBuilder.integer ⟨[]⟩ "id").primaryKey.bind
    PostgresTableSchemaBuilder.increments).map
    PostgresTableSchemaBuilder.build) = Except.ok "(id SERIAL)" := by rfl

lemma mk_append (l₁ l₂ : List Char) :
    String.mk l₁ ++ String.mk l₂ = String.mk (l₁ ++ l₂) := rfl

lemma flatMap_id_of_no_quote (l : List Char) (h : ∀ c ∈ l, c ≠ sqChar) :
    (l.flatMap fun c => if c = sqChar then [sqChar, sqChar] else [c]) = l := by
  induction l with
  | nil => rfl
  | cons c cs ih =>
    have hc : c ≠ sqChar := h c (List.mem_cons_self _ _)
    simp [hc, ih fun x hx => h x (List.mem_cons_of_mem _ hx)]

/-- Claim C7: every modifier method invoked on a builder with zero prior
columns fails with its descriptive usage error instead of silently doing
nothing, and on a builder with at least one prior column none of them
raises — each returns the builder extended through `addColumn`. -/
theorem c7_modifier_guard (b : PostgresTableSchemaBuilder)
    (rt rc : String) (v : JSVal) :
    (b.columns = [] →
      b.unique = Except.error
        "unique() requires a previous column. Call a datatype method first."
      ∧ b.primaryKey = Except.error
        "primaryKey() requires a previous column. Call a datatype method first."
      ∧ b.foreignKey rt rc = Except.error
        "foreignKey() requires a previous column. Call a datatype method first."
      ∧ b.nullable = Except.error
        "nullable() requires a previous column. Call a datatype method first."
      ∧ b.defaultTo v = Except.error
        "defaultTo() requires a previous column. Call a datatype method first."
      ∧ b.increments = Except.error
        "increments() requires a previous column. Call a datatype method first.")
    ∧ (b.columns ≠ [] →
      b.unique = Except.ok
        (SchemaTableBuilder.addColumn b ⟨none, none, ["UNIQUE"], false⟩)
      ∧ b.primaryKey = Except.ok
        (SchemaTableBuilder.addColumn b ⟨none, none, ["PRIMARY KEY"], false⟩)
      ∧ b.foreignKey rt rc = Except.ok
        (SchemaTableBuilder.addColumn b
          ⟨none, none, ["REFERENCES " ++ rt ++ "(" ++ rc ++ ")"], false⟩)
      ∧ b.nullable = Except.ok
        (SchemaTableBuilder.addColumn b ⟨none, none, ["NULLABLE"], false⟩)
      ∧ b.defaultTo v = Except.ok
        (SchemaTableBuilder.addColumn b
          ⟨none, none, ["DEFAULT " ++ renderDefault v], false⟩)
      ∧ b.increments = Except.ok
        (SchemaTableBuilder.addColumn b ⟨none, none, [], true⟩)) := by
  obtain ⟨cols⟩ := b
  constructor
  · intro h
    subst h
    exact ⟨rfl, rfl, rfl, rfl, rfl, rfl⟩
  · intro h
    have hlen : cols.length ≠ 0 := fun hc => h (List.length_eq_zero.mp hc)
    refine ⟨?_, ?_, ?_, ?_, ?_, ?_⟩ <;>
      simp [PostgresTableSchemaBuilder.unique,
        PostgresTableSchemaBuilder.primaryKey,
        PostgresTableSchemaBuilder.foreignKey,
        PostgresTableSchemaBuilder.nullable,
        PostgresTableSchemaBuilder.defaultTo,
        PostgresTableSchemaBuilder.increments, hlen]

/-- Witness for C7: `unique()` on an empty builder fails with the usage
error; on a builder holding one column it succeeds. -/
theorem c7_modifier_guard_witness :
    PostgresTableSchemaBuilder.unique ⟨[]⟩ = Except.error
      "unique() requires a previous column. Call a datatype method first."
    ∧ PostgresTableSchemaBuilder.unique
        ⟨[⟨some "id", some "INTEGER", [], false⟩]⟩ =
      Except.ok (SchemaTableBuilder.addColumn
        ⟨[⟨some "id", some "INTEGER", [], false⟩]⟩
        ⟨none, none, ["UNIQUE"], false⟩) :=
  ⟨((c7_modifier_guard ⟨[]⟩ "t" "c" JSVal.undef).1 rfl).1,
   ((c7_modifier_guard ⟨[⟨some "id", some "INTEGER", [], false⟩]⟩
      "t" "c" JSVal.undef).2 (by decide)).1⟩

/-- Claim C8: `enum` produces a TEXT column with a value-membership CHECK
constraint, `build` rendering the spec's example to exactly
`status TEXT CHECK (status IN ('draft', 'published'))`; and the value
escaping replaces every embedded single quote by a doubled one while
leaving quote-free text unchanged. -/
theorem c8_enum_membership_check :
    (PostgresTableSchemaBuilder.enum ⟨[]⟩ "status"
        ["draft", "published"]).build =
      "(status TEXT CHECK (status IN (" ++ sqStr ++ "draft" ++ sqStr ++
        ", " ++ sqStr ++ "published" ++ sqStr ++ ")))"
    ∧ (∀ a b : String, escapeQuotes (a ++ sqStr ++ b) =
        escapeQuotes a ++ sqStr ++ sqStr ++ escapeQuotes b)
    ∧ (∀ s : String, (∀ c ∈ s.data, c ≠ sqChar) → escapeQuotes s = s) := by
  refine ⟨by decide, ?_, ?_⟩
  · intro a b
    have hdata : (a ++ sqStr ++ b).data = a.data ++ [sqChar] ++ b.data := rfl
    simp only [escapeQuotes, hdata, sqStr, mk_append, List.flatMap_append]
    simp
  · intro s hs
    unfold escapeQuotes
    rw [flatMap_id_of_no_quote s.data hs]

/-- Witness for C8's quote-free case: escaping leaves `ab` unchanged. -/
theorem c8_enum_membership_check_witness : escapeQuotes "ab" = "ab" :=
  c8_enum_membership_check.2.2 "ab" (by decide)

/-- Claim C10: `defaultTo` appends to the most recent column exactly the
constraint `DEFAULT '<v>'` for a string value `v`, with `v` inserted
verbatim between the quotes — embedded single quotes are not doubled —
while numbers and booleans are rendered literally without quotes. -/
theorem c10_defaultTo_verbatim :
    (∀ (b : PostgresTableSchemaBuilder) (v : JSVal), b.columns ≠ [] →
      ∃ rest last, b.columns = rest ++ [last] ∧
        b.defaultTo v = Except.ok ⟨rest ++
          [⟨last.name, last.datatype,
            last.constraints ++ ["DEFAULT " ++ renderDefault v],
            last.autoincrement⟩]⟩)
    ∧ (∀ s : String, (renderDefault (JSVal.str s)).data =
        sqChar :: (s.data ++ [sqChar]))
    ∧ (∀ n : Int, renderDefault (JSVal.num n) = toString n)
    ∧ (∀ bv : Bool, renderDefault (JSVal.bool bv) =
        if bv then "true" else "false") := by
  refine ⟨?_, ?_, fun n => rfl, fun bv => rfl⟩
  · intro b v h
    obtain ⟨cols⟩ := b
    rcases List.eq_nil_or_concat cols with rfl | ⟨rest, last, hcat⟩
    · exact absurd rfl h
    · rw [List.concat_eq_append] at hcat
      subst hcat
      refine ⟨rest, last, rfl, ?_⟩
      have hlen : (rest ++ [last]).length ≠ 0 := by simp
      unfold PostgresTableSchemaBuilder.defaultTo
      rw [if_neg hlen]
      unfold SchemaTableBuilder.addColumn
      simp [List.getLast?_concat, List.dropLast_concat]
  · intro s
    rfl

/-- Witness for C10 at a value with an embedded quote: the constraint text
holds the value verbatim, undoubled. -/
theorem c10_defaultTo_verbatim_witness :
    ∃ rest last,
      (⟨[⟨some "name", some "VARCHAR", [], false⟩]⟩ :
          PostgresTableSchemaBuilder).columns = rest ++ [last] ∧
      PostgresTableSchemaBuilder.defaultTo
          ⟨[⟨some "name", some "VARCHAR", [], false⟩]⟩
          (JSVal.str ("it" ++ sqStr ++ "s")) =
        Except.ok ⟨rest ++ [⟨last.name, last.datatype,
          last.constraints ++
            ["DEFAULT " ++ renderDefault (JSVal.str ("it" ++ sqStr ++ "s"))],
          last.autoincrement⟩]⟩ :=
  c10_defaultTo_verbatim.1 ⟨[⟨some "name", some "VARCHAR", [], false⟩]⟩
    (JSVal.str ("it" ++ sqStr ++ "s")) (by decide)

/-- `PostgresSchemaBuilder.createTable` (PostgresSchemaBuilder.ts, lines
10-19): build the columns through the caller's callback, compose the
`CREATE TABLE IF NOT EXISTS` text, prepare a statement (which acquires a
client when the pool exists), and invoke `statement.run()` — crucially,
WITHOUT `await`. The promise `createTable` returns therefore resolves with
no value regardless of how the dispatched query ends; the release that
`run()`'s `finally` performs still happens and is counted. -/
def PostgresSchemaBuilder.createTable (clientAvailable : Bool) (name : String)
    (callback : PostgresTableSchemaBuilder → PostgresTableSchemaBuilder)
    (o : QueryOutcome) : Except String Unit × Nat :=
  let tableBuilder := callback ⟨[]⟩
  let cols := tableBuilder.build
  let query := "CREATE TABLE IF NOT EXISTS " ++ name ++ " " ++ cols
  let statement : PostgresStatement :=
    ⟨query, if clientAvailable then some () else none⟩
  (Except.ok (), (statement.run [] o).releases)

/-- `PostgresSchemaBuilder.dropTable` (lines 21-25): same dispatch shape,
same missing `await` on `statement.run()`. -/
def PostgresSchemaBuilder.dropTable (clientAvailable : Bool) (name : String)
    (o : QueryOutcome) : Except String Unit × Nat :=
  let query := "DROP TABLE IF EXISTS " ++ name
  let statement : PostgresStatement :=
    ⟨query, if clientAvailable then some () else none⟩
  (Except.ok (), (statement.run [] o).releases)

/-- Claim C4 fails on the code: a backend failure while executing the
dispatched DDL is not propagated to the caller of `createTable` or
`dropTable` — both resolve successfully at the failing input (the
connection is still released inside `run()`'s `finally`), and indeed they
resolve successfully for every driver outcome. -/
theorem c4_schema_dispatch_swallows_backend_error :
    PostgresSchemaBuilder.createTable true "users"
        (fun t => t.integer "id") (QueryOutcome.err "syntax error") =
      (Except.ok (), 1)
    ∧ PostgresSchemaBuilder.dropTable true "users"
        (QueryOutcome.err "syntax error") = (Except.ok (), 1)
    ∧ (∀ o : QueryOutcome, (PostgresSchemaBuilder.createTable true "users"
        (fun t => t.integer "id") o).1 = Except.ok ()) := by
  exact ⟨rfl, rfl, fun o => rfl⟩
